import Mathlib

/-!
Verification of the cache/parse/search/render core of `tldrpp`
(`src/tldrpp/cache.py`) against its natural-language specification.

The embedding works on `List Char` throughout (converted from `String` at the
boundary) so that every definition is structurally recursive and concrete
instances evaluate by `decide` / `rfl`.  Python strings are modelled as Lean
strings (code points), Python dicts of string bindings as association lists
(first binding wins, as dict keys are unique), and Python exceptions as
`Except` values.
-/

namespace Tldrpp

/-- Lowercasing of a string, modelling Python's `str.lower()` (the inputs of
interest are ASCII, where `Char.toLower` and `str.lower` agree). -/
def lowerS (s : String) : String :=
  String.mk (s.data.map Char.toLower)

/-- Substring test on char lists: `isInfixB needle hay` is `true` iff `needle`
occurs contiguously in `hay`; this models Python's `needle in hay`. -/
def isInfixB (needle : List Char) : List Char → Bool
  | [] => needle.isEmpty
  | c :: rest => needle.isPrefixOf (c :: rest) || isInfixB needle rest

/-- Python's `sub in hay` on strings. -/
def containsStr (hay sub : String) : Bool :=
  isInfixB sub.data hay.data

/-- Lexicographic comparison of char lists by code point, modelling Python's
`<=` on `str`. -/
def leList : List Char → List Char → Bool
  | [], _ => true
  | _ :: _, [] => false
  | a :: as, b :: bs => if a < b then true else if b < a then false else leList as bs

/-- Entry in the tldr pages index (`IndexEntry` in cache.py). -/
structure IndexEntry where
  name : String
  description : String
  platform : String
deriving DecidableEq, Repr

/-- Placeholder in a command (`Placeholder` in cache.py); `type` is the Python
string-valued kind ("file", "directory", ..., "text").  The Python attribute
is `self.type`, but the constructor PARAMETER is named `type_` (line 28): a
call passing the keyword `type`, as `_extract_placeholders` does at line 331,
raises `TypeError` (unexpected keyword argument).  The repo's tests construct
placeholders positionally, which succeeds. -/
structure Placeholder where
  name : String
  type : String := "text"
  description : String := ""
  default : String := ""
deriving DecidableEq, Repr

/-- Command example (`Example` in cache.py).  The Python constructor signature
is `__init__(self, description, command, placeholders=None)`: `command` has no
default value, and the constructor performs no placeholder extraction, so
`Example(d, c)` carries an empty placeholder list. -/
structure Example where
  description : String
  command : String
  placeholders : List Placeholder := []
deriving DecidableEq, Repr

/-- tldr page (`Page` in cache.py). -/
structure Page where
  name : String
  description : String
  platform : String
  examples : List Example := []
  raw_content : String := ""
deriving DecidableEq, Repr

/-- Python runtime exceptions that the modelled code can raise. -/
inductive PyErr where
  | typeError
  | attributeError
  | keyError
  | notFound (name : String)
deriving DecidableEq, Repr

/- ### Placeholder engine (`_extract_placeholders`, `_infer_placeholder_type`) -/

/-- Scanner for the regex `\{\{([^}]+)\}\}` of `_extract_placeholders`
(line 322): left to right, at each position a match requires two opening
braces, then a maximal nonempty run of characters other than `\x7d`, then two
closing braces; on success the scan resumes after the consumed match, on
failure at the next character.  The first argument counts characters still to
be skipped from a previous match. -/
def scanAux : Nat → List Char → List String
  | _, [] => []
  | k + 1, _ :: rest => scanAux k rest
  | 0, c :: rest =>
    if c = '\x7b' then
      match rest with
      | '\x7b' :: rest2 =>
        let r := rest2.takeWhile (fun ch => ch ≠ '\x7d')
        if r ≠ [] ∧ ((rest2.drop r.length).take 2 = ['\x7d', '\x7d']) then
          String.mk r :: scanAux (3 + r.length) rest
        else
          scanAux 0 rest
      | _ => scanAux 0 rest
    else
      scanAux 0 rest

/-- Names of the `\{\{([^}]+)\}\}` matches of a command string, in match
order, as returned by `pattern.findall(command)`. -/
def findTokenNames (command : String) : List String :=
  scanAux 0 command.data

/-- Type inference of `_infer_placeholder_type` (lines 337-360), an elif
chain of case-insensitive substring tests on the lowercased name. -/
def infer_placeholder_type (name : String) : String :=
  let n := lowerS name
  if containsStr n "file" || containsStr n "path" then "file"
  else if containsStr n "dir" || containsStr n "directory" then "directory"
  else if containsStr n "port" then "port"
  else if containsStr n "num" || containsStr n "number" || containsStr n "count" then "number"
  else if containsStr n "url" || containsStr n "link" then "url"
  else if containsStr n "ip" || containsStr n "address" then "ip"
  else if containsStr n "user" || containsStr n "username" then "username"
  else if containsStr n "pass" || containsStr n "password" then "password"
  else if containsStr n "email" then "email"
  else "text"

/-- Deduplication loop of `_extract_placeholders` (lines 325-333): walk the
match list with a `seen` set; for a name not seen before, the code executes
`Placeholder(name=match, type=self._infer_placeholder_type(match))` (lines
329-332), which raises `TypeError` because the constructor's parameter is
`type_`, not `type` (line 28).  The statements after that call (`seen.add`,
the append, and hence the skip branch for already-seen names) are unreachable
from an initially empty `seen`; the skip branch is still modelled faithfully.
-/
def extractLoop : List String → List String → Except PyErr (List Placeholder)
  | [], _ => .ok []
  | n :: rest, seen =>
    if n ∈ seen then extractLoop rest seen
    else .error .typeError

/-- The full `_extract_placeholders` (lines 317-335): it returns the empty
list when the template contains no `\{\{([^}]+)\}\}` match (the loop body
never runs) and raises `TypeError` at the first match otherwise. -/
def extract_placeholders (command : String) : Except PyErr (List Placeholder) :=
  extractLoop (findTokenNames command) []

/- ### Command renderer (`Example.render`, lines 53-65) -/

/-- Replacement pass of `pattern.sub(value, command)` for the literal pattern
`tok`: left to right, at a position where `tok` is a prefix emit `val` and
resume after the consumed occurrence, otherwise keep the character.  The first
argument counts characters still to be skipped from a previous match.  The
replacement text is emitted literally (no `re.sub` group/escape processing;
the values of interest contain no backslash). -/
def replAux (tok val : List Char) : Nat → List Char → List Char
  | _, [] => []
  | k + 1, _ :: rest => replAux tok val k rest
  | 0, c :: rest =>
    if tok.isPrefixOf (c :: rest) then
      val ++ replAux tok val (tok.length - 1) rest
    else
      c :: replAux tok val 0 rest

/-- Replacement of every occurrence of the literal string `tok` in `s` by
`val`. -/
def replaceAll (tok val s : String) : String :=
  String.mk (replAux tok.data val.data 0 s.data)

/-- Modelled from the spec: the pattern of line 62,
`re.compile(rf"\{\{{{re.escape(placeholder.name)}}}\}}")`, is missing — that
f-string is a SyntaxError on every CPython version (its expression part begins
with a backslash), so the module cannot even be imported and the line denotes
no pattern.  The token a placeholder matches is therefore modelled from the
spec's `\x7b\x7bidentifier\x7d\x7d` template syntax (consistent with the
`\{\{([^}]+)\}\}` regex of `_extract_placeholders` and the `re.escape` around
the name, which make the evident intent the literal text
`\x7b\x7b` + name + `\x7d\x7d`). -/
def tokenOf (name : String) : String :=
  "\x7b\x7b" ++ name ++ "\x7d\x7d"

/-- Lookup in the variable mapping, modelling `variables.get(name)` on a dict
rendered as an association list (dict keys are unique, so first match wins). -/
def lookupVar : List (String × String) → String → Option String
  | [], _ => none
  | (k, v) :: rest, n => if k = n then some v else lookupVar rest n

/-- Value resolution of `Example.render` (lines 58-60):
`value = variables.get(placeholder.name, placeholder.default)` followed by
`if not value: value = placeholder.name`. -/
def resolveValue (vars : List (String × String)) (p : Placeholder) : String :=
  let value := (lookupVar vars p.name).getD p.default
  if value = "" then p.name else value

/-- Value resolution as the amended claim words it: the user binding if the
name is bound, otherwise the declared default; the placeholder's own name is
substituted whenever the value so chosen is empty (in particular a bound but
empty value bypasses a non-empty default). -/
def spec_resolve (vars : List (String × String)) (p : Placeholder) : String :=
  match lookupVar vars p.name with
  | some v => if v = "" then p.name else v
  | none => if p.default = "" then p.name else p.default

/-- Renderer of `Example.render` (lines 53-65): for each stored placeholder in
order, replace every occurrence of its token in the progressively rewritten
command by its resolved value.  The substitution pattern is `tokenOf
placeholder.name`, which is modelled from the spec because line 62 of the
source is a SyntaxError (see `tokenOf`). -/
def Example.render (ex : Example) (vars : List (String × String)) : String :=
  ex.placeholders.foldl
    (fun command p => replaceAll (tokenOf p.name) (resolveValue vars p) command)
    ex.command

/-- Sequential substitution as the amended claim words it: the resolved values
are computed up front, then folded over the command left to right, each pass
rewriting the output of the previous one. -/
def seqSubstitute (pairs : List (String × String)) (s : String) : String :=
  pairs.foldl (fun cmd pr => replaceAll (tokenOf pr.1) pr.2 cmd) s

/-- Independent (parallel) substitution, the behaviour the original claim
describes: a single left-to-right scan of the original template in which each
resolved token is replaced by its value and the emitted value is opaque, never
re-scanned.  The first argument counts characters still to be skipped. -/
def parAux (pairs : List (String × String)) : Nat → List Char → List Char
  | _, [] => []
  | k + 1, _ :: rest => parAux pairs k rest
  | 0, c :: rest =>
    match pairs.find? (fun pr => (tokenOf pr.1).data.isPrefixOf (c :: rest)) with
    | some pr => pr.2.data ++ parAux pairs ((tokenOf pr.1).data.length - 1) rest
    | none => c :: parAux pairs 0 rest

/-- Independent substitution of all the given name/value pairs against `s`. -/
def substParallel (pairs : List (String × String)) (s : String) : String :=
  String.mk (parAux pairs 0 s.data)

/- ### Page parser (`_parse_page`, lines 273-315) -/

/-- Python's `content.split("\n")` on the character list of the content. -/
def splitLines : List Char → List (List Char)
  | [] => [[]]
  | c :: rest =>
    if c = '\n' then [] :: splitLines rest
    else
      match splitLines rest with
      | l :: ls => (c :: l) :: ls
      | [] => [[c]]

/-- Python's `line.strip()` (whitespace from both ends; the inputs of interest
use ASCII whitespace, where `Char.isWhitespace` and Python agree). -/
def stripL (l : List Char) : List Char :=
  ((l.dropWhile Char.isWhitespace).reverse.dropWhile Char.isWhitespace).reverse

/-- Parser state of the `_parse_page` loop: the page description so far, the
appended examples, the pending example and the `in_example` flag. -/
structure ParseSt where
  description : String
  examples : List Example
  current : Option Example
  in_example : Bool
deriving DecidableEq, Repr

/-- Processing of one line of `_parse_page` (lines 286-309).  The `- ` branch
executes `Example(description=line[2:])`, which raises `TypeError`: the
`Example` constructor's `command` parameter has no default value, so the call
is missing a required positional argument.  The code after that construction
(the backtick branch and the append of a pending example) is therefore
unreachable in Python; it is still modelled faithfully below. -/
def parseLine (st : ParseSt) (raw : List Char) : Except PyErr ParseSt :=
  let line := stripL raw
  if ['#', ' '].isPrefixOf line then
    .ok st
  else if ['>', ' '].isPrefixOf line then
    .ok { st with description := String.mk (line.drop 2) }
  else if ['-', ' '].isPrefixOf line then
    .error .typeError
  else if ['\x60'].isPrefixOf line ∧ line.getLast? = some '\x60' ∧ st.in_example then
    match st.current with
    | some ex =>
      let command := String.mk ((line.drop 1).dropLast)
      match extract_placeholders command with
      | .ok ps => .ok { st with current := some { ex with
                    command := command, placeholders := ps } }
      | .error e => .error e
    | none => .error .attributeError
  else if line = [] then
    .ok { st with in_example := false }
  else
    .ok st

/-- Folding `parseLine` over the lines, aborting at the first exception. -/
def parseLinesFold : ParseSt → List (List Char) → Except PyErr ParseSt
  | st, [] => .ok st
  | st, l :: ls => do parseLinesFold (← parseLine st l) ls

/-- The full `_parse_page(content, entry)` (lines 273-315): run the line loop
from the initial state, then append the pending example if any. -/
def parse_page (content : String) (entry : IndexEntry) : Except PyErr Page := do
  let st ← parseLinesFold
    { description := entry.description, examples := [], current := none, in_example := false }
    (splitLines content.data)
  let examples :=
    match st.current with
    | some ex => st.examples ++ [ex]
    | none => st.examples
  .ok { name := entry.name, description := st.description, platform := entry.platform,
        examples := examples, raw_content := content }

/- ### Index store (`_save_index`, `_load_index`, lines 231-262) -/

/-- JSON documents, at the value level: the persisted index artifact is the
document produced by `json.dump` and read back by `json.load`; the text layer
of the `json` library is not re-modelled. -/
inductive JVal where
  | str (s : String)
  | num (n : Int)
  | bool (b : Bool)
  | null
  | arr (xs : List JVal)
  | obj (fields : List (String × JVal))

/-- Lookup of `item["key"]` on a JSON object (our saved objects have unique
keys, so first match wins). -/
def jGet : List (String × JVal) → String → Option JVal
  | [], _ => none
  | (k, v) :: rest, n => if k = n then some v else jGet rest n

/-- Serialization of `_save_index` (lines 231-246): the persisted document is
a JSON array of objects with the three string fields of each entry, in list
order. -/
def save_index (entries : List IndexEntry) : JVal :=
  .arr (entries.map fun e =>
    .obj [("name", .str e.name), ("description", .str e.description),
          ("platform", .str e.platform)])

/-- Reading of one index item in `_load_index`: `item["name"]` etc.; a missing
key raises `KeyError`, and a non-string value is rejected here (Python would
store it unchecked; the claims only concern string-valued fields). -/
def loadEntry : JVal → Except PyErr IndexEntry
  | .obj fields =>
    match jGet fields "name", jGet fields "description", jGet fields "platform" with
    | some (.str n), some (.str d), some (.str p) =>
      .ok { name := n, description := d, platform := p }
    | some _, some _, some _ => .error .typeError
    | _, _, _ => .error .keyError
  | _ => .error .typeError

/-- List comprehension of `_load_index` over the decoded array. -/
def loadEntries : List JVal → Except PyErr (List IndexEntry)
  | [] => .ok []
  | item :: rest => do
    let e ← loadEntry item
    let es ← loadEntries rest
    .ok (e :: es)

/-- Deserialization of `_load_index` (lines 248-262) from the persisted JSON
document. -/
def load_index : JVal → Except PyErr (List IndexEntry)
  | .arr items => loadEntries items
  | _ => .error .typeError

/- ### Stable ascending sort, modelling Python's `list.sort(key=...)` -/

/-- Strict version of a Bool comparator. -/
def ltB (le : α → α → Bool) (a b : α) : Bool :=
  le a b && !(le b a)

/-- Insertion of `x` after every strictly smaller element: for equal keys the
inserted element goes first, which together with `pySort` reproduces the
stability of Python's sort. -/
def insertIn (le : α → α → Bool) (x : α) : List α → List α
  | [] => [x]
  | y :: ys => if ltB le y x then y :: insertIn le x ys else x :: y :: ys

/-- Stable ascending sort by the comparator `le`, modelling Python's
`list.sort(key=k)` with `le a b = (k a <= k b)`. -/
def pySort (le : α → α → Bool) : List α → List α
  | [] => []
  | x :: xs => insertIn le x (pySort le xs)

/- ### Cache repository (`find_page`, `search_pages`, scoring) -/

/-- Sort key of the `matches.sort` call in `find_page` (lines 158-161): the
pair `(not name.lower().startswith(command.lower()), name.lower())`, compared
as Python compares tuples (`False < True`, then code-point order on the
lowercased name). -/
def matchKey (command : String) (e : IndexEntry) : Bool × List Char :=
  (!((lowerS command).data.isPrefixOf (lowerS e.name).data), (lowerS e.name).data)

/-- Tuple comparison of two `matchKey` values. -/
def leKey : Bool × List Char → Bool × List Char → Bool
  | (false, s), (false, t) => leList s t
  | (false, _), (true, _) => true
  | (true, _), (false, _) => false
  | (true, s), (true, t) => leList s t

/-- Comparator on index entries used by the `find_page` sort. -/
def leMatch (command : String) (e₁ e₂ : IndexEntry) : Bool :=
  leKey (matchKey command e₁) (matchKey command e₂)

/-- Substring matches collected by `find_page` (lines 149-152): entries whose
lowercased name contains the lowercased command. -/
def matchesOf (index : List IndexEntry) (command : String) : List IndexEntry :=
  index.filter (fun e => containsStr (lowerS e.name) (lowerS command))

/-- The `find_page` lookup (lines 139-163), parametrised by the page loader
`load` that abstracts `_load_page` (reading the page file from the cache and
parsing it), taken total here: the claim concerns which entry is selected.
First loop: the first entry whose name equals `command` exactly
(case-sensitive `==`).  Otherwise the substring matches are sorted by
`matchKey` (Python's sort is stable and ascending; the sorted list is empty
exactly when `matches` is, so testing emptiness after sorting is faithful to
the code's `if not matches: raise ValueError(...)` before it). -/
def find_page (load : IndexEntry → Page) (index : List IndexEntry)
    (command : String) : Except PyErr Page :=
  match index.find? (fun e => e.name == command) with
  | some e => .ok (load e)
  | none =>
    match pySort (leMatch command) (matchesOf index command) with
    | [] => .error (.notFound command)
    | best :: _ => .ok (load best)

/-- Relevance scoring of `_calculate_relevance_score` (lines 362-386). -/
def calculate_relevance_score (page : Page) (query : String) : Nat :=
  let ql := (lowerS query)
  let nl := (lowerS page.name)
  let dl := (lowerS page.description)
  let nameScore :=
    if nl = ql then 100
    else if ql.data.isPrefixOf nl.data then 50
    else if containsStr nl ql then 25
    else 0
  let descScore := if containsStr dl ql then 10 else 0
  let exScore :=
    15 * page.examples.countP (fun ex => containsStr (lowerS ex.description) ql)
  nameScore + descScore + exScore

/-- Comparator used by the `results.sort(key=...)` call of `search_pages`
(line 187): ascending relevance score (Python's `sort` without `reverse`). -/
def leScore (query : String) (p₁ p₂ : Page) : Bool :=
  calculate_relevance_score p₁ query ≤ calculate_relevance_score p₂ query

/-- The `search_pages` query (lines 165-188), parametrised by the page loader
(`Except` models the `try`/`except` skip of pages that fail to load): filter
by platform when the filter list is non-empty, keep entries whose lowercased
name or description contains the lowercased query, load them in index order,
then sort by ascending relevance score. -/
def search_pages (load : IndexEntry → Except Unit Page) (index : List IndexEntry)
    (query : String) (platforms : List String) : List Page :=
  let ql := lowerS query
  let results := index.filterMap fun e =>
    if platforms ≠ [] ∧ ¬ (e.platform ∈ platforms) then none
    else if containsStr (lowerS e.name) ql || containsStr (lowerS e.description) ql then
      match load e with
      | .ok page => some page
      | .error _ => none
    else none
  pySort (leScore query) results

/-- Loader returning the bare page of an entry (no examples); used to
instantiate the abstract loaders in concrete statements. -/
def trivLoad (e : IndexEntry) : Page :=
  { name := e.name, description := e.description, platform := e.platform }

/-- Loader for `search_pages` that always succeeds with the bare page. -/
def trivLoadE (e : IndexEntry) : Except Unit Page :=
  .ok (trivLoad e)

/- ### Specification-side definitions used by refinement statements -/

/-- Priority-ordered type-inference rule table, as the claim words it: each
row is a pattern list and the kind the first matching row yields. -/
def inferenceRules : List (List String × String) :=
  [(["file", "path"], "file"),
   (["dir", "directory"], "directory"),
   (["port"], "port"),
   (["num", "number", "count"], "number"),
   (["url", "link"], "url"),
   (["ip", "address"], "ip"),
   (["user", "username"], "username"),
   (["pass", "password"], "password"),
   (["email"], "email")]

/-- First rule of the table one of whose patterns occurs in the (lowercased)
name; `"text"` when no rule matches. -/
def lookupRule (n : String) : List (List String × String) → String
  | [] => "text"
  | (pats, ty) :: rest =>
    if pats.any (fun pat => containsStr n pat) then ty else lookupRule n rest

/-- Type inference as the claim words it: case-insensitive substring matching
against the priority-ordered rule table, first matching rule wins, `"text"`
when no rule matches. -/
def spec_infer_type (name : String) : String :=
  lookupRule (lowerS name) inferenceRules

end Tldrpp

namespace Tldrpp

/- ### Sanity examples for the placeholder engine and renderer. -/

example : findTokenNames "tar -xf \x7b\x7bfile\x7d\x7d" = ["file"] := by decide

example : extract_placeholders "cp \x7b\x7bsrc\x7d\x7d \x7b\x7bdest\x7d\x7d"
    = .error .typeError := by rfl

example : extract_placeholders "ls -la" = .ok [] := by rfl

example : infer_placeholder_type "file" = "file" := by decide

example : infer_placeholder_type "username" = "username" := by decide

example :
    Example.render
      { description := "e", command := "tar -xf \x7b\x7bfile\x7d\x7d",
        placeholders := [{ name := "file" }] }
      [("file", "a.tar.gz")] = "tar -xf a.tar.gz" := by decide

example :
    Example.render
      { description := "e", command := "tar -xf \x7b\x7bfile\x7d\x7d",
        placeholders := [{ name := "file" }] }
      [] = "tar -xf file" := by decide

example :
    substParallel [("a", "\x7b\x7bb\x7d\x7d"), ("b", "x")]
      "\x7b\x7ba\x7d\x7d \x7b\x7bb\x7d\x7d" = "\x7b\x7bb\x7d\x7d x" := by decide

example :
    Example.render
      { description := "e", command := "\x7b\x7ba\x7d\x7d \x7b\x7bb\x7d\x7d",
        placeholders := [{ name := "a" }, { name := "b" }] }
      [("a", "\x7b\x7bb\x7d\x7d"), ("b", "x")] = "x x" := by decide

example :
    parse_page "- Extract archive:" { name := "tar", description := "d", platform := "linux" }
      = .error .typeError := by rfl

example :
    parse_page "# tar\n\n> Archive utility." { name := "tar", description := "d", platform := "linux" }
      = .ok { name := "tar", description := "Archive utility.", platform := "linux",
              examples := [], raw_content := "# tar\n\n> Archive utility." } := by rfl

example :
    find_page trivLoad
      [{ name := "XB", description := "d", platform := "linux" },
       { name := "Xa", description := "d", platform := "linux" }] "x"
      = .ok (trivLoad { name := "Xa", description := "d", platform := "linux" }) := by rfl

example :
    search_pages trivLoadE
      [{ name := "xtar", description := "", platform := "linux" },
       { name := "tar", description := "", platform := "linux" }] "tar" []
      = [trivLoad { name := "xtar", description := "", platform := "linux" },
         trivLoad { name := "tar", description := "", platform := "linux" }] := by decide

example :
    load_index (save_index [{ name := "tar", description := "Archive utility", platform := "linux" },
                            { name := "ls", description := "List files", platform := "common" }])
      = .ok [{ name := "tar", description := "Archive utility", platform := "linux" },
             { name := "ls", description := "List files", platform := "common" }] := by rfl

/- ### Helper lemmas about the renderer -/

theorem isInfixB_refl (l : List Char) : isInfixB l l = true := by
  cases l with
  | nil => rfl
  | cons c rest => simp [isInfixB, List.isPrefixOf_iff_prefix]

theorem replAux_no_occurrence (tok val : List Char) :
    ∀ s : List Char, isInfixB tok s = false → replAux tok val 0 s = s := by
  intro s
  induction s with
  | nil => intro _; rfl
  | cons c rest ih =>
    intro h
    rw [isInfixB, Bool.or_eq_false_iff] at h
    rw [replAux, if_neg (by simp [h.1]), ih h.2]

theorem replaceAll_of_not_contains (tok val s : String)
    (h : containsStr s tok = false) : replaceAll tok val s = s := by
  unfold replaceAll
  rw [replAux_no_occurrence tok.data val.data s.data h]

theorem render_foldl_id (vars : List (String × String)) (cmd : String) :
    ∀ ps : List Placeholder,
      (∀ p ∈ ps, containsStr cmd (tokenOf p.name) = false) →
      ps.foldl (fun command p => replaceAll (tokenOf p.name) (resolveValue vars p) command) cmd
        = cmd := by
  intro ps
  induction ps with
  | nil => intro _; rfl
  | cons p rest ih =>
    intro h
    rw [List.foldl_cons,
        replaceAll_of_not_contains _ _ _ (h p (List.mem_cons_self p rest)),
        ih (fun q hq => h q (List.mem_cons_of_mem p hq))]

theorem parAux_singleton (n v : String) :
    ∀ (s : List Char) (k : Nat),
      parAux [(n, v)] k s = replAux (tokenOf n).data v.data k s := by
  intro s
  induction s with
  | nil => intro k; cases k <;> rfl
  | cons c rest ih =>
    intro k
    cases k with
    | succ m => rw [parAux, replAux, ih]
    | zero =>
      by_cases h : (tokenOf n).data.isPrefixOf (c :: rest) = true
      · rw [parAux, replAux, if_pos h]
        simp only [List.find?_cons, h, ih]
      · have h' : (tokenOf n).data.isPrefixOf (c :: rest) = false :=
          Bool.eq_false_iff.mpr h
        rw [parAux, replAux, if_neg h]
        simp only [List.find?_cons, h', List.find?_nil, ih]

theorem resolveValue_eq_spec (vars : List (String × String)) (p : Placeholder) :
    resolveValue vars p = spec_resolve vars p := by
  unfold resolveValue spec_resolve
  cases h : lookupVar vars p.name <;> simp [h]

/- ### Claim C4 -/

/-- Claim C4 is false as stated: `Example("Extract", "tar -xf \x7b\x7bfile\x7d\x7d")`
carries an empty placeholder list (the constructor does not extract
placeholders from the template), so `render` with `\x7b"file": "a.tar.gz"\x7d`
returns the template unchanged, not `"tar -xf a.tar.gz"`; moreover with an
explicit placeholder carrying the non-empty default `"d"`, a bound but empty
value resolves to the placeholder name `"file"`, not to the default `"d"` as
the claim's resolution order requires. -/
theorem c4_render_counterexample :
    Example.render
        { description := "Extract", command := "tar -xf \x7b\x7bfile\x7d\x7d" }
        [("file", "a.tar.gz")]
      = "tar -xf \x7b\x7bfile\x7d\x7d"
    ∧ "tar -xf \x7b\x7bfile\x7d\x7d" ≠ "tar -xf a.tar.gz"
    ∧ Example.render
        { description := "Extract", command := "tar -xf \x7b\x7bfile\x7d\x7d",
          placeholders := [{ name := "file", type := "file", default := "d" }] }
        [("file", "")]
      = "tar -xf file"
    ∧ "tar -xf file" ≠ "tar -xf d" := by
  refine ⟨rfl, by decide, by decide, by decide⟩

/-- Claim C4, amended: value resolution takes the user binding if the name is
bound, otherwise the declared default, and substitutes the placeholder's own
name whenever the value so chosen is empty (so a bound but empty value
bypasses a non-empty default); every occurrence of the token of each stored
placeholder is replaced.  Because the `Example` constructor stores no
placeholders by itself, the claim's concrete equations hold once the `file`
placeholder is attached explicitly: then rendering with
`\x7b"file": "a.tar.gz"\x7d` gives `"tar -xf a.tar.gz"` and rendering with the
empty mapping and no declared default gives `"tar -xf file"`. -/
theorem c4_render_amended :
    (∀ (vars : List (String × String)) (p : Placeholder),
      resolveValue vars p = spec_resolve vars p)
    ∧ Example.render
        { description := "Extract", command := "tar -xf \x7b\x7bfile\x7d\x7d",
          placeholders := [{ name := "file", type := "file" }] }
        [("file", "a.tar.gz")]
      = "tar -xf a.tar.gz"
    ∧ Example.render
        { description := "Extract", command := "tar -xf \x7b\x7bfile\x7d\x7d",
          placeholders := [{ name := "file", type := "file" }] }
        []
      = "tar -xf file" := by
  refine ⟨resolveValue_eq_spec, by decide, by decide⟩

/- ### Claim C5 -/

/-- Claim C5 is false as stated: rendering `"\x7b\x7ba\x7d\x7d \x7b\x7bb\x7d\x7d"`
with placeholders `a, b` and bindings `a := "\x7b\x7bb\x7d\x7d"`, `b := "x"`
yields `"x x"` — the value substituted for `a` is re-scanned by the later pass
for `b` — whereas independent substitution of the resolved values against the
original template yields `"\x7b\x7bb\x7d\x7d x"`. -/
theorem c5_opacity_counterexample :
    Example.render
        { description := "e", command := "\x7b\x7ba\x7d\x7d \x7b\x7bb\x7d\x7d",
          placeholders := [{ name := "a" }, { name := "b" }] }
        [("a", "\x7b\x7bb\x7d\x7d"), ("b", "x")]
      = "x x"
    ∧ substParallel
        ([{ name := "a" }, { name := "b" }].map
          (fun p : Placeholder =>
            (p.name, resolveValue [("a", "\x7b\x7bb\x7d\x7d"), ("b", "x")] p)))
        "\x7b\x7ba\x7d\x7d \x7b\x7bb\x7d\x7d"
      = "\x7b\x7bb\x7d\x7d x"
    ∧ "x x" ≠ "\x7b\x7bb\x7d\x7d x" := by
  refine ⟨by decide, by decide, by decide⟩

/-- Claim C5, amended: the output of `render` equals substituting the
resolved values sequentially, in stored placeholder order, each pass rewriting
the output of the previous one — so an earlier resolved value that contains a
later placeholder's token is re-scanned and substituted, not opaque.  For an
`Example` with a single placeholder this coincides with independent
substitution against the original template. -/
theorem c5_sequential_amended :
    (∀ (ex : Example) (vars : List (String × String)),
      ex.render vars
        = seqSubstitute (ex.placeholders.map fun p => (p.name, resolveValue vars p)) ex.command)
    ∧ (∀ (d c : String) (p : Placeholder) (vars : List (String × String)),
      Example.render { description := d, command := c, placeholders := [p] } vars
        = substParallel [(p.name, resolveValue vars p)] c) := by
  constructor
  · intro ex vars
    unfold Example.render seqSubstitute
    rw [List.foldl_map]
  · intro d c p vars
    show replaceAll (tokenOf p.name) (resolveValue vars p) c = _
    unfold substParallel replaceAll
    rw [parAux_singleton]

/- ### Claim C10 -/

/-- Claim C10 is false as stated: in the template `"\x7b\x7bx\x7b\x7ba\x7d\x7d"`
the (only) double-brace token has the name `"x\x7b\x7ba"`, which is not in the
stored placeholder list `["a"]`, yet rendering with `a := "Q"` rewrites the
nested occurrence of `\x7b\x7ba\x7d\x7d` inside it and produces
`"\x7b\x7bxQ"`, in which that token no longer appears. -/
theorem c10_untouched_counterexample :
    Example.render
        { description := "e", command := "\x7b\x7bx\x7b\x7ba\x7d\x7d",
          placeholders := [{ name := "a" }] }
        [("a", "Q")]
      = "\x7b\x7bxQ"
    ∧ findTokenNames "\x7b\x7bx\x7b\x7ba\x7d\x7d" = ["x\x7b\x7ba"]
    ∧ tokenOf "x\x7b\x7ba" = "\x7b\x7bx\x7b\x7ba\x7d\x7d"
    ∧ ("x\x7b\x7ba" ∈ ([{ name := "a" }] : List Placeholder).map Placeholder.name) = False
    ∧ containsStr "\x7b\x7bxQ" (tokenOf "x\x7b\x7ba") = false := by
  refine ⟨by decide, by decide, rfl, by simp, by decide⟩

/-- Claim C10, amended: `render` substitutes only occurrences of the stored
placeholders' tokens.  When the placeholder list is empty, and more generally
whenever no stored placeholder's token occurs in the command template, the
template is returned unchanged for every variable mapping.  A double-brace
token whose name is not in the list is not itself a substitution target, but
it need not survive verbatim: a stored token occurring nested inside it can
rewrite it, as the counterexample shows. -/
theorem c10_untouched_amended :
    (∀ (ex : Example) (vars : List (String × String)),
      ex.placeholders = [] → ex.render vars = ex.command)
    ∧ (∀ (ex : Example) (vars : List (String × String)),
      (∀ p ∈ ex.placeholders, containsStr ex.command (tokenOf p.name) = false) →
      ex.render vars = ex.command) := by
  constructor
  · intro ex vars h
    unfold Example.render
    rw [h]
    rfl
  · intro ex vars h
    exact render_foldl_id vars ex.command ex.placeholders h

/-- Witness instantiating both parts of the amended claim C10 at concrete
inputs. -/
theorem c10_untouched_witness :
    Example.render { description := "e", command := "ls -la" } [("file", "v")] = "ls -la"
    ∧ Example.render
        { description := "e", command := "ls -la",
          placeholders := [{ name := "file", type := "file" }] }
        [("file", "v")]
      = "ls -la" := by
  constructor
  · exact c10_untouched_amended.1
      { description := "e", command := "ls -la" } [("file", "v")] rfl
  · exact c10_untouched_amended.2
      { description := "e", command := "ls -la",
        placeholders := [{ name := "file", type := "file" }] }
      [("file", "v")] (by decide)

/- ### Helper lemmas about the comparators and the sort -/

theorem leList_cons_iff (a b : Char) (as bs : List Char) :
    leList (a :: as) (b :: bs) = true ↔ a < b ∨ (a = b ∧ leList as bs = true) := by
  rw [leList]
  by_cases h1 : a < b
  · rw [if_pos h1]
    exact ⟨fun _ => Or.inl h1, fun _ => rfl⟩
  · by_cases h2 : b < a
    · rw [if_neg h1, if_pos h2]
      constructor
      · intro hf; exact absurd hf (by simp)
      · rintro (hab | ⟨rfl, _⟩)
        · exact absurd hab h1
        · exact absurd h2 (lt_irrefl a)
    · have he : a = b := le_antisymm (not_lt.mp h2) (not_lt.mp h1)
      rw [if_neg h1, if_neg h2]
      constructor
      · intro h; exact Or.inr ⟨he, h⟩
      · rintro (hab | ⟨_, h⟩)
        · exact absurd hab h1
        · exact h

theorem leList_total : ∀ s t : List Char, (leList s t || leList t s) = true := by
  intro s
  induction s with
  | nil => intro t; rw [leList]; rfl
  | cons a as ih =>
    intro t
    cases t with
    | nil => rw [leList, leList]; rfl
    | cons b bs =>
      rcases lt_trichotomy a b with h | h | h
      · rw [(leList_cons_iff ..).mpr (Or.inl h)]; rfl
      · subst h
        rcases Bool.or_eq_true_iff.mp (ih bs) with h' | h'
        · rw [(leList_cons_iff ..).mpr (Or.inr ⟨rfl, h'⟩)]; rfl
        · rw [(leList_cons_iff ..).mpr (Or.inr ⟨rfl, h'⟩), Bool.or_true]
      · rw [(leList_cons_iff ..).mpr (Or.inl h), Bool.or_true]

theorem leList_trans : ∀ s t u : List Char,
    leList s t = true → leList t u = true → leList s u = true := by
  intro s
  induction s with
  | nil => intro t u _ _; rw [leList]
  | cons a as ih =>
    intro t u h1 h2
    cases t with
    | nil => rw [leList] at h1; exact absurd h1 (by simp)
    | cons b bs =>
      cases u with
      | nil => rw [leList] at h2; exact absurd h2 (by simp)
      | cons c cs =>
        rcases (leList_cons_iff ..).mp h1 with hab | ⟨hab, h1'⟩
        · rcases (leList_cons_iff ..).mp h2 with hbc | ⟨hbc, _⟩
          · exact (leList_cons_iff ..).mpr (Or.inl (lt_trans hab hbc))
          · exact (leList_cons_iff ..).mpr (Or.inl (hbc ▸ hab))
        · rcases (leList_cons_iff ..).mp h2 with hbc | ⟨hbc, h2'⟩
          · exact (leList_cons_iff ..).mpr (Or.inl (hab ▸ hbc))
          · exact (leList_cons_iff ..).mpr (Or.inr ⟨hab.trans hbc, ih bs cs h1' h2'⟩)

theorem leKey_total : ∀ x y : Bool × List Char, (leKey x y || leKey y x) = true := by
  rintro ⟨b1, s1⟩ ⟨b2, s2⟩
  cases b1 <;> cases b2 <;> simp only [leKey, Bool.or_true, Bool.true_or] <;>
    exact leList_total s1 s2

theorem leKey_trans : ∀ x y z : Bool × List Char,
    leKey x y = true → leKey y z = true → leKey x z = true := by
  rintro ⟨b1, s1⟩ ⟨b2, s2⟩ ⟨b3, s3⟩ h1 h2
  cases b1 <;> cases b2 <;> cases b3 <;>
    simp only [leKey] at h1 h2 ⊢ <;>
    first
    | rfl
    | exact leList_trans _ _ _ h1 h2
    | exact absurd h1 Bool.false_ne_true
    | exact absurd h2 Bool.false_ne_true

theorem leMatch_total (cmd : String) :
    ∀ e₁ e₂ : IndexEntry, (leMatch cmd e₁ e₂ || leMatch cmd e₂ e₁) = true :=
  fun e₁ e₂ => leKey_total (matchKey cmd e₁) (matchKey cmd e₂)

theorem leMatch_trans (cmd : String) :
    ∀ e₁ e₂ e₃ : IndexEntry, leMatch cmd e₁ e₂ = true → leMatch cmd e₂ e₃ = true →
      leMatch cmd e₁ e₃ = true :=
  fun e₁ e₂ e₃ => leKey_trans (matchKey cmd e₁) (matchKey cmd e₂) (matchKey cmd e₃)

theorem mem_insertIn (le : α → α → Bool) (x : α) :
    ∀ (l : List α) (a : α), a ∈ insertIn le x l ↔ a = x ∨ a ∈ l := by
  intro l
  induction l with
  | nil => intro a; simp [insertIn]
  | cons y ys ih =>
    intro a
    rw [insertIn]
    by_cases h : ltB le y x = true
    · rw [if_pos h]
      simp only [List.mem_cons, ih]
      tauto
    · rw [if_neg h]
      simp only [List.mem_cons]

theorem insertIn_ne_nil (le : α → α → Bool) (x : α) :
    ∀ l : List α, insertIn le x l ≠ [] := by
  intro l
  cases l with
  | nil => simp [insertIn]
  | cons y ys =>
    rw [insertIn]
    by_cases h : ltB le y x = true
    · rw [if_pos h]; simp
    · rw [if_neg h]; simp

theorem mem_pySort (le : α → α → Bool) :
    ∀ (l : List α) (a : α), a ∈ pySort le l ↔ a ∈ l := by
  intro l
  induction l with
  | nil => intro a; rw [pySort]
  | cons x xs ih =>
    intro a
    rw [pySort, mem_insertIn]
    simp [List.mem_cons, ih]

theorem pySort_eq_nil_iff (le : α → α → Bool) (l : List α) :
    pySort le l = [] ↔ l = [] := by
  cases l with
  | nil => simp [pySort]
  | cons x xs =>
    rw [pySort]
    simp [insertIn_ne_nil le x (pySort le xs)]

theorem pairwise_insertIn (le : α → α → Bool)
    (htot : ∀ a b, (le a b || le b a) = true)
    (htrans : ∀ a b c, le a b = true → le b c = true → le a c = true) (x : α) :
    ∀ l, List.Pairwise (fun a b => le a b = true) l →
      List.Pairwise (fun a b => le a b = true) (insertIn le x l) := by
  intro l
  induction l with
  | nil => intro _; exact List.pairwise_singleton _ x
  | cons y ys ih =>
    intro hp
    rw [List.pairwise_cons] at hp
    rw [insertIn]
    by_cases h : ltB le y x = true
    · rw [if_pos h]
      rw [List.pairwise_cons]
      refine ⟨fun z hz => ?_, ih hp.2⟩
      rcases (mem_insertIn le x ys z).mp hz with rfl | hz'
      · rw [ltB, Bool.and_eq_true] at h
        exact h.1
      · exact hp.1 z hz'
    · rw [if_neg h]
      have hxy : le x y = true := by
        by_cases hxy' : le x y = true
        · exact hxy'
        · exfalso
          apply h
          have hf : le x y = false := Bool.eq_false_iff.mpr hxy'
          have ht : le y x = true := by
            have htot' := htot x y
            rw [hf, Bool.false_or] at htot'
            exact htot'
          rw [ltB, ht, hf]
          rfl
      rw [List.pairwise_cons]
      refine ⟨fun z hz => ?_, List.pairwise_cons.mpr hp⟩
      rcases List.mem_cons.mp hz with rfl | hz'
      · exact hxy
      · exact htrans x y z hxy (hp.1 z hz')

theorem pairwise_pySort (le : α → α → Bool)
    (htot : ∀ a b, (le a b || le b a) = true)
    (htrans : ∀ a b c, le a b = true → le b c = true → le a c = true) :
    ∀ l, List.Pairwise (fun a b => le a b = true) (pySort le l) := by
  intro l
  induction l with
  | nil => rw [pySort]; exact List.Pairwise.nil
  | cons x xs ih => rw [pySort]; exact pairwise_insertIn le htot htrans x _ ih

theorem pySort_head_min (le : α → α → Bool)
    (htot : ∀ a b, (le a b || le b a) = true)
    (htrans : ∀ a b c, le a b = true → le b c = true → le a c = true)
    (l : List α) (b : α) (rest : List α) (hs : pySort le l = b :: rest) :
    ∀ a ∈ l, le b a = true := by
  intro a ha
  have hmem : a ∈ b :: rest := hs ▸ (mem_pySort le l a).mpr ha
  have hpw := pairwise_pySort le htot htrans l
  rw [hs, List.pairwise_cons] at hpw
  rcases List.mem_cons.mp hmem with rfl | h'
  · rcases Bool.or_eq_true_iff.mp (htot a a) with h | h <;> exact h
  · exact hpw.1 a h'

theorem eq_name_mem_matchesOf (idx : List IndexEntry) (cmd : String) (e : IndexEntry)
    (he : e ∈ idx) (hn : e.name = cmd) : e ∈ matchesOf idx cmd := by
  unfold matchesOf
  refine List.mem_filter.mpr ⟨he, ?_⟩
  rw [hn]
  unfold containsStr
  exact isInfixB_refl (lowerS cmd).data

/- ### Claim C6 -/

/-- Claim C6 is false as stated: with the index `[XB, Xa]` and query `"x"`
both names are case-insensitive prefix matches, and the code tie-breaks on the
lexicographic order of the LOWERCASED names, picking `Xa` (`"xa" <= "xb"`),
whereas the claim's "lexicographic name" order picks `XB` (`"XB"` precedes
`"Xa"` by code point, `66 < 97`). -/
theorem c6_find_page_counterexample :
    find_page trivLoad
        [{ name := "XB", description := "d", platform := "linux" },
         { name := "Xa", description := "d", platform := "linux" }] "x"
      = .ok { name := "Xa", description := "d", platform := "linux" }
    ∧ matchesOf
        [{ name := "XB", description := "d", platform := "linux" },
         { name := "Xa", description := "d", platform := "linux" }] "x"
      = [{ name := "XB", description := "d", platform := "linux" },
         { name := "Xa", description := "d", platform := "linux" }]
    ∧ leList "XB".data "Xa".data = true
    ∧ "XB" ≠ "Xa" := by
  refine ⟨by rfl, by rfl, by decide, by decide⟩

/-- Claim C6, amended: an exact (case-sensitive) name match returns the page
of the first such entry in index order; otherwise, among the entries whose
lowercased name contains the lowercased query, the returned entry is minimal
under the order "name starts with the query" preferred first, then
lexicographic LOWERCASED name as tie-break; `find_page` fails with `NotFound`
exactly when no entry's name contains the query case-insensitively. -/
theorem c6_find_page_amended :
    (∀ (load : IndexEntry → Page) (idx : List IndexEntry) (cmd : String) (e : IndexEntry),
      idx.find? (fun x => x.name == cmd) = some e →
      find_page load idx cmd = .ok (load e))
    ∧ (∀ (load : IndexEntry → Page) (idx : List IndexEntry) (cmd : String),
      idx.find? (fun x => x.name == cmd) = none →
      matchesOf idx cmd ≠ [] →
      ∃ e, e ∈ matchesOf idx cmd ∧ find_page load idx cmd = .ok (load e) ∧
        ∀ x ∈ matchesOf idx cmd, leMatch cmd e x = true)
    ∧ (∀ (load : IndexEntry → Page) (idx : List IndexEntry) (cmd : String),
      find_page load idx cmd = .error (.notFound cmd) ↔ matchesOf idx cmd = []) := by
  refine ⟨?_, ?_, ?_⟩
  · intro load idx cmd e h
    unfold find_page
    rw [h]
  · intro load idx cmd hnone hne
    unfold find_page
    rw [hnone]
    cases hs : pySort (leMatch cmd) (matchesOf idx cmd) with
    | nil => exact absurd ((pySort_eq_nil_iff _ _).mp hs) hne
    | cons best rest =>
      refine ⟨best, ?_, rfl, ?_⟩
      · exact (mem_pySort _ _ best).mp (hs ▸ List.mem_cons_self best rest)
      · exact pySort_head_min _ (leMatch_total cmd) (leMatch_trans cmd) _ best rest hs
  · intro load idx cmd
    unfold find_page
    cases hf : idx.find? (fun x => x.name == cmd) with
    | some e =>
      constructor
      · intro h
        exact absurd h (by simp)
      · intro hm
        exfalso
        have he : e ∈ idx := List.mem_of_find?_eq_some hf
        have hn : e.name = cmd := by
          have hp := List.find?_some hf
          exact eq_of_beq hp
        have hmem : e ∈ matchesOf idx cmd := eq_name_mem_matchesOf idx cmd e he hn
        rw [hm] at hmem
        exact absurd hmem (List.not_mem_nil e)
    | none =>
      cases hs : pySort (leMatch cmd) (matchesOf idx cmd) with
      | nil =>
        rw [(pySort_eq_nil_iff _ _).mp hs]
        simp
      | cons best rest =>
        constructor
        · intro h
          exact absurd h (by simp)
        · intro hm
          rw [hm] at hs
          rw [pySort] at hs
          exact absurd hs (by simp)

/-- Witness instantiating the three parts of the amended claim C6 at concrete
inputs. -/
theorem c6_find_page_witness :
    find_page trivLoad [{ name := "tar", description := "d", platform := "linux" }] "tar"
      = .ok (trivLoad { name := "tar", description := "d", platform := "linux" })
    ∧ (∃ e, e ∈ matchesOf [{ name := "ab", description := "d", platform := "linux" }] "a"
        ∧ find_page trivLoad [{ name := "ab", description := "d", platform := "linux" }] "a"
            = .ok (trivLoad e)
        ∧ ∀ x ∈ matchesOf [{ name := "ab", description := "d", platform := "linux" }] "a",
            leMatch "a" e x = true)
    ∧ find_page trivLoad [{ name := "ab", description := "d", platform := "linux" }] "zzz"
      = .error (.notFound "zzz") := by
  refine ⟨?_, ?_, ?_⟩
  · exact c6_find_page_amended.1 trivLoad _ "tar"
      { name := "tar", description := "d", platform := "linux" } (by rfl)
  · exact c6_find_page_amended.2.1 trivLoad
      [{ name := "ab", description := "d", platform := "linux" }] "a" (by rfl) (by decide)
  · exact (c6_find_page_amended.2.2 trivLoad
      [{ name := "ab", description := "d", platform := "linux" }] "zzz").mpr (by rfl)

/- ### Claim C7 -/

/-- Claim C7 is contradicted by the code: when the template contains at least
one `\{\{([^}]+)\}\}` match, `_extract_placeholders` raises `TypeError`
instead of returning placeholders — the construction at line 331 passes the
keyword `type` to a constructor whose parameter is named `type_` (line 28) —
so extraction can never produce the claimed list; e.g. `"tar -xf
\x7b\x7bfile\x7d\x7d"` has the single match `file` and raises.  A template
with no match returns the empty list without raising; in particular
`"\x7b\x7ba\x7db\x7d\x7d"`, the double-brace token of the `\x7d\x7d`-free
name `"a\x7db"`, has no match at all, because `[^}]+` forbids every single
closing brace in an identifier, not just the two-character sequence
`\x7d\x7d` the claim allows. -/
theorem c7_extract_raises :
    findTokenNames "tar -xf \x7b\x7bfile\x7d\x7d" = ["file"]
    ∧ extract_placeholders "tar -xf \x7b\x7bfile\x7d\x7d" = .error .typeError
    ∧ tokenOf "a\x7db" = "\x7b\x7ba\x7db\x7d\x7d"
    ∧ containsStr "a\x7db" "\x7d\x7d" = false
    ∧ findTokenNames "\x7b\x7ba\x7db\x7d\x7d" = []
    ∧ extract_placeholders "\x7b\x7ba\x7db\x7d\x7d" = .ok [] := by
  refine ⟨by decide, by rfl, rfl, by decide, by decide, by rfl⟩

/- ### Claim C8 -/

/-- Claim C8 holds: `_infer_placeholder_type` implements exactly the
case-insensitive, priority-ordered rule table
file/path, dir/directory, port, num/number/count, url/link, ip/address,
user/username, pass/password, email, with `"text"` when no rule matches; in
particular `infer_type("file") = file`, `infer_type("username") = username`
and `infer_type("unknown_token") = text`. -/
theorem c8_infer_type :
    (∀ name : String, infer_placeholder_type name = spec_infer_type name)
    ∧ infer_placeholder_type "file" = "file"
    ∧ infer_placeholder_type "username" = "username"
    ∧ infer_placeholder_type "unknown_token" = "text" := by
  refine ⟨fun name => ?_, by decide, by decide, by decide⟩
  simp only [infer_placeholder_type, spec_infer_type, inferenceRules, lookupRule,
    List.any_cons, List.any_nil, Bool.or_false, Bool.or_assoc]

/- ### Claim C9 -/

theorem loadEntries_save :
    ∀ es : List IndexEntry,
      loadEntries (es.map (fun e => JVal.obj
        [("name", .str e.name), ("description", .str e.description),
         ("platform", .str e.platform)])) = .ok es := by
  intro es
  induction es with
  | nil => rfl
  | cons e rest ih =>
    rw [List.map_cons, loadEntries,
        show loadEntry (JVal.obj
          [("name", .str e.name), ("description", .str e.description),
           ("platform", .str e.platform)]) = .ok e from rfl,
        ih]
    rfl

/-- Claim C9 holds: saving any list of index entries and loading it back
returns the same list, field for field and in the same order (stated at the
level of the persisted JSON document, which `_save_index` writes whole and
`_load_index` reads back). -/
theorem c9_index_roundtrip :
    ∀ entries : List IndexEntry, load_index (save_index entries) = .ok entries := by
  intro entries
  exact loadEntries_save entries

/- ### Claims C1 and C2 (the parser raises) -/

/-- Claim C1 is contradicted by the code: a list-marker line executes
`Example(description=line[2:])`, which raises `TypeError` because the
constructor's required `command` argument is missing, so `_parse_page` raises
on every input containing a list-marker line instead of appending an `Example`
with an empty template; an input with no list-marker line does return a
`Page`. -/
theorem c1_parse_page_raises :
    parse_page "- Extract archive:"
        { name := "tar", description := "Archive utility", platform := "linux" }
      = .error .typeError
    ∧ parse_page "# tar\n\n> Archive utility."
        { name := "tar", description := "d", platform := "linux" }
      = .ok { name := "tar", description := "Archive utility.", platform := "linux",
              examples := [], raw_content := "# tar\n\n> Archive utility." } :=
  ⟨rfl, rfl⟩

/-- Claim C2 is contradicted by the code: parsing the end-to-end `tar` page
raises `TypeError` at the `- Extract archive:` line (missing `command`
argument of the `Example` constructor) instead of producing a `Page` with one
example. -/
theorem c2_parse_tar_raises :
    parse_page "# tar\n\n> Archive utility.\n\n- Extract archive:\n  `tar -xf \x7b\x7bfile\x7d\x7d`\n"
        { name := "tar", description := "Archive utility", platform := "linux" }
      = .error .typeError :=
  rfl

/- ### Claim C3 (search results are sorted ascending) -/

/-- Claim C3 is contradicted by the code: `results.sort(key=score)` sorts by
ASCENDING relevance, so for the query `"tar"` the substring match `xtar`
(score 25) is returned before the exact match `tar` (score 100) — the
opposite of the claimed non-increasing order. -/
theorem c3_search_pages_ascending :
    search_pages trivLoadE
        [{ name := "xtar", description := "", platform := "linux" },
         { name := "tar", description := "", platform := "linux" }] "tar" []
      = [trivLoad { name := "xtar", description := "", platform := "linux" },
         trivLoad { name := "tar", description := "", platform := "linux" }]
    ∧ calculate_relevance_score
        (trivLoad { name := "xtar", description := "", platform := "linux" }) "tar" = 25
    ∧ calculate_relevance_score
        (trivLoad { name := "tar", description := "", platform := "linux" }) "tar" = 100 := by
  refine ⟨by decide, by decide, by decide⟩

end Tldrpp
